import Mathlib

/-!
Verification development for the `node-on-my-watch` core: the concurrent
process-execution engine (`ProcessRunner` and its stream pumps in
`src/main/python/karellen/nomw/utils.py`) and the Kubernetes client
version-cache / hot-swap machinery (`install_python_k8s_client`,
`K8SClientWrapper`, and the cache-clearing entry point in `app.py`).

Shallow embedding conventions:
* the filesystem is a set of existing directory paths (`FS`), a path being a
  list of name components;
* gevent greenlets and the cooperative scheduler are modelled by a labelled
  small-step transition relation (`Step`) over a `Config` recording the child
  process status, the per-pump progress, and the program counter of `wait`;
* pipes carry lists of units (chunks in binary mode, lines in text mode);
* Python falsiness (`safe_args or args`, `if not self.server_version`) is
  modelled explicitly;
* fallible operations return `Except`.
-/

namespace Nomw

/-! ## Filesystem model -/

/-- A filesystem path, as a list of components. -/
abbrev Path := List String

/-- All prefixes of a path, shortest first, including the path itself. -/
def prefixesOf : Path → List Path
  | [] => [[]]
  | a :: rest => [] :: List.map (List.cons a) (prefixesOf rest)

/-- The filesystem: the set (as a list) of directories that exist. -/
structure FS where
  dirs : List Path
  deriving DecidableEq

/-- `Path.exists()` for a directory. -/
def FS.existsDir (fs : FS) (p : Path) : Bool :=
  decide (p ∈ fs.dirs)

/-- `Path.mkdir(parents=True, exist_ok=True)`: create the directory and all
its ancestors. -/
def FS.mkdirParents (fs : FS) (p : Path) : FS :=
  { dirs := prefixesOf p ++ fs.dirs }

/-- `shutil.rmtree`: remove the directory and everything below it. -/
def FS.rmtree (fs : FS) (p : Path) : FS :=
  { dirs := List.filter (fun d => !(List.isPrefixOf p d)) fs.dirs }

/-- Models `platformdirs.user_cache_dir(appname)`: some platform-dependent
per-user cache root ending in the application name. -/
def user_cache_dir (appname : String) : Path :=
  ["home", "user", ".cache", appname]

/-- `get_app_cache_dir` from `utils.py`. -/
def get_app_cache_dir : Path :=
  user_cache_dir "nomw"

/-- `get_cache_dir` from `utils.py`: the app cache root joined with the
category (and optional sub-category); created with parents if absent. -/
def get_cache_dir (fs : FS) (category : String) (sub_category : Option String) :
    FS × Path :=
  let config_dir := get_app_cache_dir ++ [category]
  let config_dir :=
    match sub_category with
    | some sc => config_dir ++ [sc]
    | none => config_dir
  if FS.existsDir fs config_dir then (fs, config_dir)
  else (FS.mkdirParents fs config_dir, config_dir)

/-! ## Version cache (`install_python_k8s_client`, cache clearing) -/

/-- State threaded through the version-cache operations: the filesystem plus
a log of every pip installer invocation `(target directory, major version)`.
An entry is appended exactly when `run([... pip install ...]).wait()` runs. -/
structure InstallState where
  fs : FS
  installs : List (Path × String)
  deriving DecidableEq

/-- `install_python_k8s_client` from `utils.py`: resolve the `python` cache
directory, and if the per-major-version subdirectory does not exist, create
it and run the pip installer targeting it; return the subdirectory. -/
def install_python_k8s_client (st : InstallState) (package_major : String) :
    InstallState × Path :=
  let res := get_cache_dir st.fs "python" none
  let fs1 := res.1
  let package_major_dir := res.2 ++ [package_major]
  if FS.existsDir fs1 package_major_dir then
    ({ st with fs := fs1 }, package_major_dir)
  else
    ({ fs := FS.mkdirParents fs1 package_major_dir,
       installs := st.installs ++ [(package_major_dir, package_major)] },
     package_major_dir)

/-- `_clear_cache` from `app.py`: `rmtree` the directory if it exists. -/
def clear_cache_dir (fs : FS) (cache_dir : Path) : FS :=
  if FS.existsDir fs cache_dir then FS.rmtree fs cache_dir else fs

/-- `clear_k8s_cache` from `app.py`: resolve the `python` cache directory
(creating it if absent, as `get_cache_dir` does) and remove it recursively. -/
def clear_k8s_cache (fs : FS) : FS :=
  let res := get_cache_dir fs "python" none
  clear_cache_dir res.1 res.2

/-! ## Server version parsing and client hot-swap (`K8SClientWrapper`) -/

/-- Whether `p` is an initial run of `s`, character by character. -/
def begins_with : List Char → List Char → Bool
  | [], _ => true
  | _ :: _, [] => false
  | p :: ps, c :: cs => p == c && begins_with ps cs

/-- Occurrence of `pat` as a contiguous run somewhere in the list. -/
def has_sub (pat : List Char) : List Char → Bool
  | [] => List.isEmpty pat
  | c :: rest => begins_with pat (c :: rest) || has_sub pat rest

/-- Split a character list on a separator character; always returns at least
one (possibly empty) piece, like Python's `str.split` with a separator. -/
def split_on_char (sep : Char) : List Char → List (List Char)
  | [] => [[]]
  | c :: rest =>
    let r := split_on_char sep rest
    if c == sep then [] :: r
    else (c :: List.headD r []) :: List.tail r

/-- Python's `pat in s` substring test. -/
def contains_substr (s pat : String) : Bool :=
  has_sub pat.data s.data

/-- Python's `s.split(sep)` for a one-character separator (the code only
splits on `"-"` and `"."`). -/
def py_split_char (s : String) (sep : Char) : List String :=
  List.map String.mk (split_on_char sep s.data)

/-- Python's `s[n:]`. -/
def py_drop (s : String) (n : Nat) : String :=
  String.mk (List.drop n s.data)

/-- The mutable state of `K8SClientWrapper`, together with the process-wide
interpreter state it mutates (`sys.modules` keys and `sys.path`). -/
structure WrapperState where
  server_version : Option (List String)
  server_git_version : Option String
  embedded_pkg_version : List String
  sys_path : List Path
  loaded_modules : List String

/-- `K8SClientWrapper._setup_client` from `utils.py`, with the server's
reported `version.git_version` supplied as `raw_git_version` (the network
query is external): strip the suffix at the first `-` when the string
contains `-eks-`, then record the dot-split of the string minus its leading
character as `server_version` and the (possibly stripped) string as
`server_git_version`. -/
def _setup_client (raw_git_version : String) (w : WrapperState) : WrapperState :=
  let git_version :=
    if contains_substr raw_git_version "-eks-" then
      List.headD (py_split_char raw_git_version '-') ""
    else raw_git_version
  { w with
    server_version := some (py_split_char (py_drop git_version 1) '.'),
    server_git_version := some git_version }

/-- Python falsiness of `self.server_version` (`None` or an empty list). -/
def list_falsy : Option (List String) → Bool
  | none => true
  | some l => l.isEmpty

/-- The `sys.modules` purge in `setup_client`: drop every key equal to
`kubernetes` or starting with `kubernetes.`. -/
def remove_kubernetes_modules (ms : List String) : List String :=
  List.filter (fun k => !(k == "kubernetes" || begins_with "kubernetes.".data k.data)) ms

/-- `K8SClientWrapper.setup_client` from `utils.py`. `raw_git_version` is the
version string the cluster reports; `installed_version` models
`importlib.metadata.version("kubernetes")` as resolved after the fetched
package directory is prepended to `sys.path`. Python's `self.server_version[1]`
indexing is modelled with `getD` (the claims only exercise in-range inputs). -/
def setup_client (raw_git_version : String) (installed_version : Path → List String)
    (w : WrapperState) (inst : InstallState) :
    WrapperState × InstallState × Path :=
  let w1 := if list_falsy w.server_version then _setup_client raw_git_version w else w
  let server_minor := List.getD (Option.getD w1.server_version []) 1 ""
  let res := install_python_k8s_client inst server_minor
  let pkg_dir := res.2
  let w2 :=
    { w1 with
      loaded_modules := remove_kubernetes_modules w1.loaded_modules,
      sys_path := pkg_dir :: w1.sys_path,
      embedded_pkg_version := installed_version pkg_dir }
  (_setup_client raw_git_version w2, res.1, pkg_dir)

/-- A `K8SClientWrapper` as built by `__init__`: no server version recorded
yet, embedded client version as discovered from the default installation. -/
def initialWrapper (embedded : List String) : WrapperState :=
  { server_version := none
    server_git_version := none
    embedded_pkg_version := embedded
    sys_path := []
    loaded_modules := ["kubernetes", "kubernetes.client", "sys"] }

/-- An install state over an empty filesystem with no installer runs. -/
def emptyInstall : InstallState :=
  { fs := { dirs := [] }, installs := [] }

/-! ## ProcessRunner: stream targets and constructor wiring -/

/-- A requested target for stdout/stderr, following the `Union` accepted by
`ProcessRunner.__init__`: `None` (discarded via `DEVNULL`), an inherited
handle / file object, or a callable sink (which includes buffer sinks such as
`StringIO(...).write`). -/
inductive OutTarget
  | nullTarget
  | handle (h : Nat)
  | callback
  deriving DecidableEq

/-- A requested source for stdin: `None`, the `DEVNULL` default, an inherited
handle / file object, a bytes/str blob, or a callable producer yielding
chunks lazily. -/
inductive InTarget
  | nullTarget
  | devnull
  | handle (h : Nat)
  | blob (data : String)
  | producer (chunks : List String)
  deriving DecidableEq

/-- What is passed to `Popen` for one stream slot. -/
inductive PopenStd
  | pipe
  | devnull
  | handle (h : Nat)
  deriving DecidableEq

/-- The pipe endpoints a `Popen` object can own. -/
inductive PipeEnd
  | toStdin
  | fromStdout
  | fromStderr
  deriving DecidableEq

/-- `stdout=PIPE if isinstance(stdout, Callable) else (stdout if stdout is not
None else DEVNULL)` (and identically for stderr). -/
def popen_out_arg : OutTarget → PopenStd
  | .callback => .pipe
  | .handle h => .handle h
  | .nullTarget => .devnull

/-- `stdin=PIPE if isinstance(stdin, (Callable, bytes, str)) else (stdin if
stdin is not None else DEVNULL)`. -/
def popen_in_arg : InTarget → PopenStd
  | .blob _ => .pipe
  | .producer _ => .pipe
  | .handle h => .handle h
  | .devnull => .devnull
  | .nullTarget => .devnull

/-- Whether `__init__` spawns a reader greenlet for this stdout/stderr
target (`... if isinstance(stdout, Callable) else None`). -/
def out_spawns_reader : OutTarget → Bool
  | .callback => true
  | _ => false

/-- Whether `__init__` spawns the stdin writer greenlet
(`... if isinstance(stdin, (Callable, bytes, str)) else None`). -/
def stdin_spawns_writer : InTarget → Bool
  | .blob _ => true
  | .producer _ => true
  | _ => false

/-- `self._safe_args = safe_args or args` (Python `or`: an empty list is
falsy, so it falls back to `args`). -/
def resolve_safe_args (args : List String) : Option (List String) → List String
  | none => args
  | some sa => if sa.isEmpty then args else sa

/-- The pipe endpoints owned by the spawned `Popen` object: present exactly
for the slots that were requested as `PIPE`. -/
structure ProcHandle where
  stdout_pipe : Option PipeEnd
  stderr_pipe : Option PipeEnd
  stdin_pipe : Option PipeEnd
  deriving DecidableEq

/-- A constructed `ProcessRunner`: the display command, the process handle,
and which pump greenlets were spawned. -/
structure Runner where
  safe_args : List String
  proc : ProcHandle
  stdin_writer : Bool
  stdout_reader : Bool
  stderr_reader : Bool
  deriving DecidableEq

/-- `ProcessRunner.__init__`: resolve the `Popen` stream arguments, record
the pipes `Popen` creates, and spawn the pump greenlets. -/
def ProcessRunner_init (args : List String) (stdout stderr : OutTarget)
    (stdin : InTarget) (safe_args : Option (List String)) : Runner :=
  { safe_args := resolve_safe_args args safe_args
    proc :=
      { stdout_pipe := if popen_out_arg stdout = .pipe then some .fromStdout else none
        stderr_pipe := if popen_out_arg stderr = .pipe then some .fromStderr else none
        stdin_pipe := if popen_in_arg stdin = .pipe then some .toStdin else none }
    stdin_writer := stdin_spawns_writer stdin
    stdout_reader := out_spawns_reader stdout
    stderr_reader := out_spawns_reader stderr }

/-- The `ProcessRunner.stdout` property: raise `RuntimeError("not available")`
unless a reader greenlet was attached, else return `self._proc.stdout`. -/
def Runner.stdout_prop (r : Runner) : Except String (Option PipeEnd) :=
  if r.stdout_reader then .ok r.proc.stdout_pipe else .error "not available"

/-- The `ProcessRunner.stderr` property. -/
def Runner.stderr_prop (r : Runner) : Except String (Option PipeEnd) :=
  if r.stderr_reader then .ok r.proc.stderr_pipe else .error "not available"

/-- The `ProcessRunner.stdin` property: raise unless the writer greenlet was
attached, else return `self._proc.stdin`. -/
def Runner.stdin_prop (r : Runner) : Except String (Option PipeEnd) :=
  if r.stdin_writer then .ok r.proc.stdin_pipe else .error "not available"

/-! ## wait: exit-status handling, output capture -/

/-- The payload of `subprocess.CalledProcessError` as raised in `wait`. -/
structure CalledProcessErrorS where
  returncode : Int
  cmd : List String
  output : Option String
  deriving DecidableEq

/-- An exception escaping `ProcessRunner.wait`: the gevent `Timeout` raised
as `TimeoutExpired`, or `CalledProcessError`. -/
inductive WaitExn
  | timeoutExpired
  | calledProcessError (e : CalledProcessErrorS)
  deriving DecidableEq

/-- The tail of `ProcessRunner.wait` once the child exit code `retcode` is
known and all pumps are joined: `if fail and retcode:` raise
`CalledProcessError(retcode, self._safe_args, output=_out_func())`, with
`output` left as `None` when no `_out_func` was supplied. -/
def wait_outcome (retcode : Int) (fail : Bool) (safe_args : List String)
    (out_value : Option String) : Except WaitExn Int :=
  if fail && !(retcode == 0) then
    .error (.calledProcessError
      { returncode := retcode, cmd := safe_args, output := out_value })
  else .ok retcode

/-- The concatenation of a list of strings, in order: the exact text a
writer produced when the list is the units it emitted. -/
def concat_all : List String → String
  | [] => ""
  | s :: rest => s ++ concat_all rest

/-- The `StringIO` wrapper from `utils.py`: a growable string sink whose
`write` appends either the line plus a newline (trimmed mode) or the line
verbatim (untrimmed mode). -/
structure StringAccum where
  trimmed : Bool
  buf : String
  deriving DecidableEq

/-- `StringIO.write` (dispatched to `write_trimmed` / `write_untrimmed`). -/
def StringAccum.write (a : StringAccum) (line : String) : StringAccum :=
  if a.trimmed then { a with buf := a.buf ++ line ++ "\n" }
  else { a with buf := a.buf ++ line }

/-- `StringIO.getvalue`. -/
def StringAccum.getvalue (a : StringAccum) : String :=
  a.buf

/-- `stream_reader_line` from `utils.py`: `for line in pipe: sink_func(line)`,
with the sink's state threaded explicitly. The pipe is the list of lines the
child emits. -/
def stream_reader_line {σ : Type} (pipe : List String) (sink_func : σ → String → σ)
    (s : σ) : σ :=
  match pipe with
  | [] => s
  | line :: rest => stream_reader_line rest sink_func (sink_func s line)

/-- `stream_reader_buf` from `utils.py`: `while read := pipe.readinto(buf):
sink_func(...)`. The pipe is the list of chunks successive `readinto` calls
deliver; a zero-length read (EOF) stops the loop. -/
def stream_reader_buf {σ : Type} (pipe : List (List Nat)) (sink_func : σ → List Nat → σ)
    (s : σ) : σ :=
  match pipe with
  | [] => s
  | chunk :: rest =>
    if chunk.length = 0 then s
    else stream_reader_buf rest sink_func (sink_func s chunk)

/-- A text-mode stdin pipe as seen by the writer: the bytes written so far
and whether it has been closed. -/
structure WPipe where
  content : String
  closed : Bool
  deriving DecidableEq

/-- The stdin source in text mode: a `str` blob or a callable producing an
iterable of chunks. -/
inductive TextSource
  | blob (data : String)
  | producer (chunks : List String)
  deriving DecidableEq

/-- `pipe.write`. -/
def WPipe.write (p : WPipe) (s : String) : WPipe :=
  { p with content := p.content ++ s }

/-- `pipe.writelines(source())`. -/
def WPipe.writeAll (p : WPipe) : List String → WPipe
  | [] => p
  | c :: cs => WPipe.writeAll (WPipe.write p c) cs

/-- `pipe.close()` (run by the `with pipe:` block on exit). -/
def WPipe.close (p : WPipe) : WPipe :=
  { p with closed := true }

/-- `stream_writer_text` from `utils.py`: inside `with pipe:`, either
`pipe.writelines(source())` for a callable or `pipe.write(source)` for a
blob; the `with` block then closes the pipe. -/
def stream_writer_text (pipe : WPipe) (source : TextSource) : WPipe :=
  WPipe.close
    (match source with
     | .producer chunks => WPipe.writeAll pipe chunks
     | .blob s => WPipe.write pipe s)

/-- The full text of a stdin source. -/
def TextSource.full_text : TextSource → String
  | .blob s => s
  | .producer chunks => concat_all chunks

/-- A binary-mode stdin pipe. -/
structure BPipe where
  content : List Nat
  closed : Bool
  deriving DecidableEq

/-- The stdin source in binary mode: a `bytes` blob or a callable producing
an iterable of buffers. -/
inductive BufSource
  | blob (data : List Nat)
  | producer (chunks : List (List Nat))
  deriving DecidableEq

/-- `pipe.write` for binary pipes. -/
def BPipe.write (p : BPipe) (b : List Nat) : BPipe :=
  { p with content := p.content ++ b }

/-- The write loop `for buf in source(): pipe.write(buf)`. -/
def BPipe.writeAll (p : BPipe) : List (List Nat) → BPipe
  | [] => p
  | c :: cs => BPipe.writeAll (BPipe.write p c) cs

/-- `pipe.close()` for binary pipes. -/
def BPipe.close (p : BPipe) : BPipe :=
  { p with closed := true }

/-- `stream_writer_buf` from `utils.py`: inside `with pipe:`, write each
buffer of a callable source, or the blob itself, then close. -/
def stream_writer_buf (pipe : BPipe) (source : BufSource) : BPipe :=
  BPipe.close
    (match source with
     | .producer chunks => BPipe.writeAll pipe chunks
     | .blob b => BPipe.write pipe b)

/-- The full byte content of a binary stdin source. -/
def BufSource.full_bytes : BufSource → List Nat
  | .blob b => b
  | .producer chunks => List.flatten chunks

/-- `run_capturing_out` from `utils.py` in text mode (the default
`universal_newlines=True`): collect the child's stdout lines into an
untrimmed `StringIO` via a reader pump, then `wait(_out_func=out.getvalue)`
with `fail=True`, returning the captured value on success. The child's
behaviour is given by the lines it writes and its exit code. -/
def run_capturing_out (child_stdout_lines : List String) (retcode : Int)
    (args : List String) (safe_args : Option (List String)) :
    Except WaitExn String :=
  let out : StringAccum := { trimmed := false, buf := "" }
  let out := stream_reader_line child_stdout_lines StringAccum.write out
  match wait_outcome retcode true (resolve_safe_args args safe_args)
      (some (StringAccum.getvalue out)) with
  | .error e => .error e
  | .ok _ => .ok (StringAccum.getvalue out)

/-! ## Cooperative scheduling model for one supervised run

One `ProcessRunner` together with a caller greenlet blocked in `wait` is
modelled as a labelled transition system. The fixed data of the run
(`RunSpec`) says which pumps `__init__` attached and which units flow through
each pipe; a `Config` records the child status, whether the caller has
signalled the child via `terminate`/`kill`, each attached pump's progress,
and the program counter of the `wait` body. Greenlet interleaving is the
nondeterminism of the step relation. -/

/-- The fixed data of one supervised run. A stream's field is `some units`
exactly when `__init__` attached a pump greenlet to it (callable stdout or
stderr target; blob or callable stdin source); `timeout_armed` is whether
`wait` was given a non-`None` timeout, arming the gevent `Timeout`. -/
structure RunSpec where
  stdin_src : Option (List String)
  stdout_src : Option (List String)
  stderr_src : Option (List String)
  timeout_armed : Bool
  deriving DecidableEq

/-- The state of one pump greenlet: how many units it has transferred, and
whether it has finished (writer: wrote everything and closed the pipe;
reader: observed EOF and returned). -/
structure TaskSt where
  moved : Nat
  finished : Bool
  deriving DecidableEq

/-- The program counter of the `wait` body: blocked in `self._proc.wait()`,
blocked in one of the three joins, returned normally, or unwound by the
gevent `Timeout` raising `TimeoutExpired`. -/
inductive WaitPC
  | inBody
  | joinStdin
  | joinStdout
  | joinStderr
  | returned
  | raisedTimeout
  deriving DecidableEq

/-- A configuration of the transition system. -/
structure Config where
  child_exited : Bool
  term_signaled : Bool
  stdin_w : Option TaskSt
  stdout_r : Option TaskSt
  stderr_r : Option TaskSt
  pc : WaitPC
  deriving DecidableEq

/-- Events: child exit; one unit of pump progress or a pump finishing; the
`wait` greenlet advancing past one of its blocking points; the armed timeout
firing; and the caller invoking `terminate()` or `kill()`. -/
inductive Ev
  | childExit
  | stdinWrite
  | stdinClose
  | stdoutRead
  | stdoutEOF
  | stderrRead
  | stderrEOF
  | waitChildDone
  | waitJoinStdin
  | waitJoinStdout
  | waitJoinStderr
  | timeoutFire
  | callTerminate
  | callKill
  deriving DecidableEq

/-- `greenlet.join()` succeeds: the greenlet is absent or has finished. -/
def taskDone : Option TaskSt → Bool
  | none => true
  | some t => t.finished

/-- The labelled step relation of one supervised run. -/
inductive Step (spec : RunSpec) : Ev → Config → Config → Prop
  | childExit (c : Config) :
      c.child_exited = false →
      Step spec .childExit c { c with child_exited := true }
  | stdinWrite (c : Config) (t : TaskSt) (src : List String) :
      c.stdin_w = some t → spec.stdin_src = some src →
      t.finished = false → t.moved < src.length →
      Step spec .stdinWrite c { c with stdin_w := some ⟨t.moved + 1, false⟩ }
  | stdinClose (c : Config) (t : TaskSt) (src : List String) :
      c.stdin_w = some t → spec.stdin_src = some src →
      t.finished = false → t.moved = src.length →
      Step spec .stdinClose c { c with stdin_w := some ⟨t.moved, true⟩ }
  | stdoutRead (c : Config) (t : TaskSt) (src : List String) :
      c.stdout_r = some t → spec.stdout_src = some src →
      t.finished = false → t.moved < src.length →
      Step spec .stdoutRead c { c with stdout_r := some ⟨t.moved + 1, false⟩ }
  | stdoutEOF (c : Config) (t : TaskSt) (src : List String) :
      c.stdout_r = some t → spec.stdout_src = some src →
      t.finished = false → t.moved = src.length → c.child_exited = true →
      Step spec .stdoutEOF c { c with stdout_r := some ⟨t.moved, true⟩ }
  | stderrRead (c : Config) (t : TaskSt) (src : List String) :
      c.stderr_r = some t → spec.stderr_src = some src →
      t.finished = false → t.moved < src.length →
      Step spec .stderrRead c { c with stderr_r := some ⟨t.moved + 1, false⟩ }
  | stderrEOF (c : Config) (t : TaskSt) (src : List String) :
      c.stderr_r = some t → spec.stderr_src = some src →
      t.finished = false → t.moved = src.length → c.child_exited = true →
      Step spec .stderrEOF c { c with stderr_r := some ⟨t.moved, true⟩ }
  | waitChildDone (c : Config) :
      c.pc = .inBody → c.child_exited = true →
      Step spec .waitChildDone c { c with pc := .joinStdin }
  | waitJoinStdin (c : Config) :
      c.pc = .joinStdin → taskDone c.stdin_w = true →
      Step spec .waitJoinStdin c { c with pc := .joinStdout }
  | waitJoinStdout (c : Config) :
      c.pc = .joinStdout → taskDone c.stdout_r = true →
      Step spec .waitJoinStdout c { c with pc := .joinStderr }
  | waitJoinStderr (c : Config) :
      c.pc = .joinStderr → taskDone c.stderr_r = true →
      Step spec .waitJoinStderr c { c with pc := .returned }
  | timeoutFire (c : Config) :
      spec.timeout_armed = true → c.pc ≠ .returned → c.pc ≠ .raisedTimeout →
      Step spec .timeoutFire c { c with pc := .raisedTimeout }
  | callTerminate (c : Config) :
      Step spec .callTerminate c { c with term_signaled := true }
  | callKill (c : Config) :
      Step spec .callKill c { c with term_signaled := true }

/-- The configuration right after `__init__` returned and `wait` was
entered: child running, no signal sent, every attached pump at zero
progress. -/
def initConfig (spec : RunSpec) : Config :=
  { child_exited := false
    term_signaled := false
    stdin_w := Option.map (fun _ => ⟨0, false⟩) spec.stdin_src
    stdout_r := Option.map (fun _ => ⟨0, false⟩) spec.stdout_src
    stderr_r := Option.map (fun _ => ⟨0, false⟩) spec.stderr_src
    pc := .inBody }

/-- A step under any event. -/
def StepAny (spec : RunSpec) (c c' : Config) : Prop :=
  ∃ e, Step spec e c c'

/-- Configurations reachable from the initial one. -/
def Reachable (spec : RunSpec) (c : Config) : Prop :=
  Relation.ReflTransGen (StepAny spec) (initConfig spec) c

/-- The units a reader pump has forwarded to its sink so far (a reader
forwards each unit synchronously as it arrives). -/
def deliveredUnits (src : Option (List String)) (t : Option TaskSt) : List String :=
  match src, t with
  | some l, some ts => List.take ts.moved l
  | _, _ => []

/-- Units delivered to the stdout sink. -/
def deliveredOut (spec : RunSpec) (c : Config) : List String :=
  deliveredUnits spec.stdout_src c.stdout_r

/-- Units delivered to the stderr sink. -/
def deliveredErr (spec : RunSpec) (c : Config) : List String :=
  deliveredUnits spec.stderr_src c.stderr_r

/-- Units the stdin writer has written to the child's stdin pipe. -/
def writtenIn (spec : RunSpec) (c : Config) : List String :=
  deliveredUnits spec.stdin_src c.stdin_w

/-- The exception `wait` has raised in a configuration, if any. -/
def wait_raises (c : Config) : Option WaitExn :=
  match c.pc with
  | .raisedTimeout => some .timeoutExpired
  | _ => none

/-- The run spec produced by `__init__` for given stream targets: a pump is
attached exactly when the target is a callable (stdout/stderr) or a
blob/callable (stdin). -/
def specOfTargets (stdout stderr : OutTarget) (stdin : InTarget)
    (in_units out_units err_units : List String) (timeout_armed : Bool) : RunSpec :=
  { stdin_src := if stdin_spawns_writer stdin then some in_units else none
    stdout_src := if out_spawns_reader stdout then some out_units else none
    stderr_src := if out_spawns_reader stderr then some err_units else none
    timeout_armed := timeout_armed }

/-- Pumps stay attached for the whole run: a pump greenlet exists exactly
when the run spec attached one. -/
def attachInv (spec : RunSpec) (c : Config) : Prop :=
  c.stdin_w.isSome = spec.stdin_src.isSome ∧
  c.stdout_r.isSome = spec.stdout_src.isSome ∧
  c.stderr_r.isSome = spec.stderr_src.isSome

/-- Progress bound for one pump: it never moves past the end of its unit
list, and it only finishes after moving everything. -/
def boundInv1 (src : Option (List String)) (t : Option TaskSt) : Prop :=
  ∀ ts l, t = some ts → src = some l →
    ts.moved ≤ l.length ∧ (ts.finished = true → ts.moved = l.length)

/-- Progress bounds for all three pumps. -/
def boundInv (spec : RunSpec) (c : Config) : Prop :=
  boundInv1 spec.stdin_src c.stdin_w ∧
  boundInv1 spec.stdout_src c.stdout_r ∧
  boundInv1 spec.stderr_src c.stderr_r

/-- What each position of the `wait` body guarantees: past `proc.wait()` the
child has exited; past each `join` the corresponding pump (if any) has
finished. -/
def pcInv (c : Config) : Prop :=
  ((c.pc = .joinStdin ∨ c.pc = .joinStdout ∨ c.pc = .joinStderr ∨ c.pc = .returned) →
    c.child_exited = true) ∧
  ((c.pc = .joinStdout ∨ c.pc = .joinStderr ∨ c.pc = .returned) →
    taskDone c.stdin_w = true) ∧
  ((c.pc = .joinStderr ∨ c.pc = .returned) → taskDone c.stdout_r = true) ∧
  (c.pc = .returned → taskDone c.stderr_r = true)

/-- The global invariant of the transition system. -/
def Inv (spec : RunSpec) (c : Config) : Prop :=
  attachInv spec c ∧ boundInv spec c ∧ pcInv c

/-! ## Helper lemmas -/

theorem string_append_assoc (a b c : String) : a ++ b ++ c = a ++ (b ++ c) := by
  apply String.ext
  simp [List.append_assoc]

theorem string_empty_append (s : String) : "" ++ s = s := by
  apply String.ext
  simp

theorem mem_prefixesOf_self (p : Path) : p ∈ prefixesOf p := by
  induction p with
  | nil => simp [prefixesOf]
  | cons a rest ih =>
    simp only [prefixesOf, List.mem_cons, List.mem_map]
    exact Or.inr ⟨rest, ih, rfl⟩

theorem length_le_of_mem_prefixesOf (p q : Path) (h : q ∈ prefixesOf p) :
    q.length ≤ p.length := by
  induction p generalizing q with
  | nil =>
    simp [prefixesOf] at h
    simp [h]
  | cons a rest ih =>
    simp only [prefixesOf, List.mem_cons, List.mem_map] at h
    rcases h with h | ⟨r, hr, rfl⟩
    · simp [h]
    · simpa using ih r hr

theorem isPrefixOf_append_right (p r : Path) : List.isPrefixOf p (p ++ r) = true := by
  induction p with
  | nil => simp [List.isPrefixOf]
  | cons a ps ih => simp [List.isPrefixOf, ih]

theorem isPrefixOf_self (p : Path) : List.isPrefixOf p p = true := by
  have h := isPrefixOf_append_right p []
  rw [List.append_nil] at h
  exact h

theorem existsDir_mkdirParents_self (fs : FS) (p : Path) :
    FS.existsDir (FS.mkdirParents fs p) p = true := by
  simp only [FS.existsDir, FS.mkdirParents, List.mem_append, decide_eq_true_eq]
  exact Or.inl (mem_prefixesOf_self p)

theorem existsDir_mkdirParents_mono (fs : FS) (p q : Path)
    (h : FS.existsDir fs q = true) : FS.existsDir (FS.mkdirParents fs p) q = true := by
  simp only [FS.existsDir, FS.mkdirParents, List.mem_append, decide_eq_true_eq] at *
  exact Or.inr h

theorem get_cache_dir_snd (fs : FS) (cat : String) :
    (get_cache_dir fs cat none).2 = get_app_cache_dir ++ [cat] := by
  simp only [get_cache_dir]
  split <;> rfl

theorem get_cache_dir_fst_preserves (fs : FS) (cat : String) (q : Path)
    (h : FS.existsDir fs q = true) :
    FS.existsDir (get_cache_dir fs cat none).1 q = true := by
  simp only [get_cache_dir]
  split
  · exact h
  · exact existsDir_mkdirParents_mono _ _ _ h

theorem get_cache_dir_creates (fs : FS) (cat : String) :
    FS.existsDir (get_cache_dir fs cat none).1 (get_app_cache_dir ++ [cat]) = true := by
  simp only [get_cache_dir]
  split
  · next h => exact h
  · exact existsDir_mkdirParents_self _ _

theorem install_snd (st : InstallState) (m : String) :
    (install_python_k8s_client st m).2 = get_app_cache_dir ++ ["python", m] := by
  simp only [install_python_k8s_client]
  split <;> simp [get_cache_dir_snd]

theorem install_creates (st : InstallState) (m : String) :
    FS.existsDir ((install_python_k8s_client st m).1).fs
      ((get_cache_dir st.fs "python" none).2 ++ [m]) = true := by
  simp only [install_python_k8s_client]
  split
  · next h => exact h
  · exact existsDir_mkdirParents_self _ _

theorem install_hit (st : InstallState) (m : String)
    (h : FS.existsDir ((get_cache_dir st.fs "python" none).1)
        ((get_cache_dir st.fs "python" none).2 ++ [m]) = true) :
    ((install_python_k8s_client st m).1).installs = st.installs := by
  simp only [install_python_k8s_client]
  split
  · rfl
  · next hn => exact absurd h (by simpa using hn)

/-! ## Claim theorems: version parsing (C5, C6) -/

/-- C5 counterexample: parsing `v1.29.4-eks-abc123` records the stripped
string `v1.29.4`, not the raw string, as `server_git_version` — the claim's
assertion that `serverGitVersion` equals the raw vendor-suffixed string is
false on the code. -/
theorem C5_raw_git_version_counterexample :
    (_setup_client "v1.29.4-eks-abc123" (initialWrapper ["29", "0", "0"])).server_git_version
      ≠ some "v1.29.4-eks-abc123" := by
  decide

/-- C5 (amended): parsing `v1.29.4-eks-abc123` yields the numeric components
`1.29.4` and records the stripped string `v1.29.4` as `server_git_version`;
a plain `v1.29.4` parses to the same numeric components (and the same
recorded git string). -/
theorem C5_version_roundtrip :
    (_setup_client "v1.29.4-eks-abc123" (initialWrapper ["29", "0", "0"])).server_version
        = some ["1", "29", "4"] ∧
    (_setup_client "v1.29.4-eks-abc123" (initialWrapper ["29", "0", "0"])).server_git_version
        = some "v1.29.4" ∧
    (_setup_client "v1.29.4" (initialWrapper ["29", "0", "0"])).server_version
        = some ["1", "29", "4"] ∧
    (_setup_client "v1.29.4" (initialWrapper ["29", "0", "0"])).server_git_version
        = some "v1.29.4" := by
  refine ⟨by decide, by decide, by decide, by decide⟩

/-- C6 counterexample: `v1.29.4-gke-abc123` contains a `-` but no `-eks-`,
and the suffix after the first `-` is not stripped: the parsed components
keep the vendor suffix and the recorded git string is the raw string. -/
theorem C6_strip_counterexample :
    contains_substr "v1.29.4-gke-abc123" "-" = true ∧
    (_setup_client "v1.29.4-gke-abc123" (initialWrapper ["29", "0", "0"])).server_version
        ≠ some ["1", "29", "4"] ∧
    (_setup_client "v1.29.4-gke-abc123" (initialWrapper ["29", "0", "0"])).server_git_version
        = some "v1.29.4-gke-abc123" := by
  refine ⟨by decide, by decide, by decide⟩

/-- C6 (amended): the suffix after the first `-` is stripped exactly when the
server-reported git version contains the literal `-eks-`; any other string
(with or without a `-`) is parsed unstripped. -/
theorem C6_strip_only_for_eks (raw : String) (w : WrapperState) :
    (contains_substr raw "-eks-" = true →
      (_setup_client raw w).server_git_version
          = some (List.headD (py_split_char raw '-') "") ∧
      (_setup_client raw w).server_version
          = some (py_split_char (py_drop (List.headD (py_split_char raw '-') "") 1) '.')) ∧
    (contains_substr raw "-eks-" = false →
      (_setup_client raw w).server_git_version = some raw ∧
      (_setup_client raw w).server_version = some (py_split_char (py_drop raw 1) '.')) := by
  constructor <;> intro h <;> simp [_setup_client, h]

/-- Witness for `C6_strip_only_for_eks` at concrete inputs. -/
theorem C6_strip_only_for_eks_witness :
    (_setup_client "v1.29.4-eks-abc123" (initialWrapper ["29", "0", "0"])).server_git_version
        = some "v1.29.4" ∧
    (_setup_client "v1.29.4-gke-abc123" (initialWrapper ["29", "0", "0"])).server_git_version
        = some "v1.29.4-gke-abc123" := by
  constructor
  · have h := (C6_strip_only_for_eks "v1.29.4-eks-abc123"
      (initialWrapper ["29", "0", "0"])).1 (by decide)
    exact h.1.trans (by decide)
  · have h := (C6_strip_only_for_eks "v1.29.4-gke-abc123"
      (initialWrapper ["29", "0", "0"])).2 (by decide)
    exact h.1

/-! ## Claim theorems: stream properties (C10) -/

/-- C10: for each of stdout/stderr/stdin, if the requested target did not
cause a pump greenlet to be attached the property raises
`RuntimeError("not available")`; when a pump was attached the property
returns the process's pipe object for that stream. -/
theorem C10_stream_properties (args : List String) (stdout stderr : OutTarget)
    (stdin : InTarget) (sa : Option (List String)) :
    (out_spawns_reader stdout = false →
      Runner.stdout_prop (ProcessRunner_init args stdout stderr stdin sa)
        = .error "not available") ∧
    (out_spawns_reader stdout = true →
      Runner.stdout_prop (ProcessRunner_init args stdout stderr stdin sa)
        = .ok (some .fromStdout)) ∧
    (out_spawns_reader stderr = false →
      Runner.stderr_prop (ProcessRunner_init args stdout stderr stdin sa)
        = .error "not available") ∧
    (out_spawns_reader stderr = true →
      Runner.stderr_prop (ProcessRunner_init args stdout stderr stdin sa)
        = .ok (some .fromStderr)) ∧
    (stdin_spawns_writer stdin = false →
      Runner.stdin_prop (ProcessRunner_init args stdout stderr stdin sa)
        = .error "not available") ∧
    (stdin_spawns_writer stdin = true →
      Runner.stdin_prop (ProcessRunner_init args stdout stderr stdin sa)
        = .ok (some .toStdin)) := by
  cases stdout <;> cases stderr <;> cases stdin <;>
    simp [ProcessRunner_init, Runner.stdout_prop, Runner.stderr_prop, Runner.stdin_prop,
      out_spawns_reader, stdin_spawns_writer, popen_out_arg, popen_in_arg]

/-! ## Claim theorems: failure propagation and capture (C3) -/

theorem string_append_empty (s : String) : s ++ "" = s := by
  apply String.ext
  simp

theorem stream_reader_line_untrimmed (lines : List String) (b : String) :
    StringAccum.getvalue (stream_reader_line lines StringAccum.write ⟨false, b⟩)
      = b ++ concat_all lines := by
  induction lines generalizing b with
  | nil => simp [stream_reader_line, StringAccum.getvalue, concat_all, string_append_empty]
  | cons l rest ih =>
    have hw : StringAccum.write ⟨false, b⟩ l = ⟨false, b ++ l⟩ := by
      simp [StringAccum.write]
    simp only [stream_reader_line]
    rw [hw, ih, concat_all, string_append_assoc]

/-- C3: a child that writes `lines` to a buffer sink (`run_capturing_out`)
and exits nonzero with `fail=True` raises `CalledProcessError` whose code is
the child's exit code, whose command is the supplied pre-substitution
`safe_args`, and whose captured output is exactly the concatenation of the
text the child wrote. -/
theorem C3_nonzero_exit_raises (lines : List String) (retcode : Int)
    (args sa : List String) (hret : retcode ≠ 0) (hsa : sa ≠ []) :
    run_capturing_out lines retcode args (some sa)
      = .error (.calledProcessError
          { returncode := retcode, cmd := sa, output := some (concat_all lines) }) := by
  have hcap : StringAccum.getvalue (stream_reader_line lines StringAccum.write ⟨false, ""⟩)
      = concat_all lines := by
    rw [stream_reader_line_untrimmed, string_empty_append]
  cases sa with
  | nil => exact absurd rfl hsa
  | cons a as =>
    simp only [run_capturing_out]
    rw [hcap]
    simp [wait_outcome, resolve_safe_args, hret]

/-- Witness for `C3_nonzero_exit_raises`: exit code 2 yields an error whose
code equals 2 and whose output is the exact text written. -/
theorem C3_nonzero_exit_raises_witness :
    run_capturing_out ["err line\n", "partial"] 2 ["pip", "install"] (some ["<cmd>"])
      = .error (.calledProcessError
          { returncode := 2, cmd := ["<cmd>"], output := some "err line\npartial" }) := by
  have h := C3_nonzero_exit_raises ["err line\n", "partial"] 2 ["pip", "install"]
      ["<cmd>"] (by decide) (by decide)
  exact h.trans (by rfl)

/-! ## Claim theorems: version-cache idempotence and clearing (C4, C9) -/

theorem install_miss (st : InstallState) (m : String)
    (h : FS.existsDir ((get_cache_dir st.fs "python" none).1)
        ((get_cache_dir st.fs "python" none).2 ++ [m]) = false) :
    ((install_python_k8s_client st m).1).installs
      = st.installs ++ [((get_cache_dir st.fs "python" none).2 ++ [m], m)] := by
  simp only [install_python_k8s_client]
  split
  · next hh => rw [h] at hh; exact Bool.noConfusion hh
  · rfl

/-- C4: the version-cache ensure operation is idempotent. The second of two
consecutive calls with the same major version returns the same directory and
runs no installer; a single call runs the installer at most once; and a call
whose directory already exists runs no installer at all. -/
theorem C4_ensure_idempotent (st : InstallState) (m : String) :
    (install_python_k8s_client (install_python_k8s_client st m).1 m).2
        = (install_python_k8s_client st m).2 ∧
    ((install_python_k8s_client (install_python_k8s_client st m).1 m).1).installs
        = ((install_python_k8s_client st m).1).installs ∧
    ((install_python_k8s_client st m).1).installs.length ≤ st.installs.length + 1 ∧
    (FS.existsDir st.fs (get_app_cache_dir ++ ["python", m]) = true →
      ((install_python_k8s_client st m).1).installs = st.installs) := by
  refine ⟨?_, ?_, ?_, ?_⟩
  · rw [install_snd, install_snd]
  · apply install_hit
    rw [get_cache_dir_snd]
    apply get_cache_dir_fst_preserves
    have h := install_creates st m
    rw [get_cache_dir_snd] at h
    exact h
  · simp only [install_python_k8s_client]
    split
    · simp
    · simp
  · intro h
    apply install_hit
    rw [get_cache_dir_snd]
    apply get_cache_dir_fst_preserves
    have hassoc : (get_app_cache_dir ++ ["python"]) ++ [m]
        = get_app_cache_dir ++ ["python", m] := by simp
    rw [hassoc]
    exact h

/-- Witness for `C4_ensure_idempotent`: with the major-version directory
already present, ensure runs no installer. -/
theorem C4_ensure_idempotent_witness :
    ((install_python_k8s_client
        { fs := { dirs := [["home", "user", ".cache", "nomw", "python", "30"]] },
          installs := [] } "30").1).installs = [] := by
  exact (C4_ensure_idempotent
    { fs := { dirs := [["home", "user", ".cache", "nomw", "python", "30"]] },
      installs := [] } "30").2.2.2 (by decide)

/-- C9: clearing the cache removes every directory under the cache root
(`.../nomw/python`), and a subsequent ensure call for any major version finds
no directory, re-runs the installer exactly once, and installs into a freshly
created directory. -/
theorem C9_clear_and_refetch (fs : FS) (m : String) (log : List (Path × String)) :
    (∀ d, d ∈ (clear_k8s_cache fs).dirs →
        List.isPrefixOf (get_app_cache_dir ++ ["python"]) d = false) ∧
    ((install_python_k8s_client { fs := clear_k8s_cache fs, installs := log } m).1).installs
        = log ++ [(get_app_cache_dir ++ ["python", m], m)] ∧
    (install_python_k8s_client { fs := clear_k8s_cache fs, installs := log } m).2
        = get_app_cache_dir ++ ["python", m] ∧
    FS.existsDir
        ((install_python_k8s_client { fs := clear_k8s_cache fs, installs := log } m).1).fs
        (get_app_cache_dir ++ ["python", m]) = true := by
  have hassoc : (get_app_cache_dir ++ ["python"]) ++ [m]
      = get_app_cache_dir ++ ["python", m] := by simp
  have hroot : ∀ d, d ∈ (clear_k8s_cache fs).dirs →
      List.isPrefixOf (get_app_cache_dir ++ ["python"]) d = false := by
    intro d hd
    simp only [clear_k8s_cache, get_cache_dir_snd] at hd
    rw [clear_cache_dir, if_pos (get_cache_dir_creates fs "python")] at hd
    simp only [FS.rmtree, List.mem_filter] at hd
    have h2 := hd.2
    simp only [Bool.not_eq_eq_eq_not, Bool.not_true] at h2
    exact h2
  have hpyroot_absent :
      FS.existsDir (clear_k8s_cache fs) (get_app_cache_dir ++ ["python"]) = false := by
    simp only [FS.existsDir, decide_eq_false_iff_not]
    intro hmem
    have h2 := hroot _ hmem
    rw [isPrefixOf_self] at h2
    exact Bool.noConfusion h2
  have hdir_absent :
      FS.existsDir
        ((get_cache_dir (clear_k8s_cache fs) "python" none).1)
        ((get_cache_dir (clear_k8s_cache fs) "python" none).2 ++ [m]) = false := by
    rw [get_cache_dir_snd]
    simp only [get_cache_dir]
    rw [if_neg (by rw [hpyroot_absent]; exact Bool.noConfusion)]
    simp only [FS.existsDir, FS.mkdirParents, decide_eq_false_iff_not, List.mem_append]
    rintro (h | h)
    · have hlen := length_le_of_mem_prefixesOf _ _ h
      simp at hlen
    · have h2 := hroot _ h
      rw [isPrefixOf_append_right] at h2
      exact Bool.noConfusion h2
  refine ⟨hroot, ?_, install_snd _ m, ?_⟩
  · have h := install_miss { fs := clear_k8s_cache fs, installs := log } m hdir_absent
    rw [get_cache_dir_snd, hassoc] at h
    exact h
  · have h := install_creates { fs := clear_k8s_cache fs, installs := log } m
    rw [get_cache_dir_snd, hassoc] at h
    exact h

/-- Witness for `C9_clear_and_refetch`: clearing a cache holding major
version 29 leaves unrelated directories, removes everything under the python
cache root, and a following ensure for major 30 runs one installer fetch. -/
theorem C9_clear_and_refetch_witness :
    List.isPrefixOf (get_app_cache_dir ++ ["python"]) ["tmp"] = false ∧
    ((install_python_k8s_client
        { fs := clear_k8s_cache
            { dirs := [["tmp"], ["home", "user", ".cache", "nomw", "python", "29"]] },
          installs := [] } "30").1).installs
      = [(["home", "user", ".cache", "nomw", "python", "30"], "30")] := by
  have h := C9_clear_and_refetch
    { dirs := [["tmp"], ["home", "user", ".cache", "nomw", "python", "29"]] } "30" []
  refine ⟨h.1 ["tmp"] (by decide), h.2.1.trans (by rfl)⟩

/-! ## Claim theorems: server minor picks the client major (C7) -/

/-- C7: the target client major version used for provisioning equals the
server version's minor-version field, and in the end-to-end scenario a server
reporting `v1.30.2` triggers exactly one provisioning fetch into the cache
directory keyed by `30`, with a second setup call in the same run performing
zero additional fetches and returning the same directory. -/
theorem C7_target_major_is_server_minor (iv : Path → List String) :
    (∀ (raw : String) (w : WrapperState) (inst : InstallState),
      list_falsy w.server_version = true →
      (setup_client raw iv w inst).2.2
        = get_app_cache_dir ++ ["python",
            List.getD (Option.getD ((setup_client raw iv w inst).1).server_version []) 1 ""]) ∧
    ((setup_client "v1.30.2" iv (initialWrapper ["29", "0", "0"]) emptyInstall).2.2
        = get_app_cache_dir ++ ["python", "30"] ∧
     ((setup_client "v1.30.2" iv (initialWrapper ["29", "0", "0"]) emptyInstall).2.1).installs
        = [(get_app_cache_dir ++ ["python", "30"], "30")] ∧
     ((setup_client "v1.30.2" iv
          (setup_client "v1.30.2" iv (initialWrapper ["29", "0", "0"]) emptyInstall).1
          (setup_client "v1.30.2" iv (initialWrapper ["29", "0", "0"]) emptyInstall).2.1).2.1).installs
        = [(get_app_cache_dir ++ ["python", "30"], "30")] ∧
     (setup_client "v1.30.2" iv
          (setup_client "v1.30.2" iv (initialWrapper ["29", "0", "0"]) emptyInstall).1
          (setup_client "v1.30.2" iv (initialWrapper ["29", "0", "0"]) emptyInstall).2.1).2.2
        = get_app_cache_dir ++ ["python", "30"]) := by
  refine ⟨?_, rfl, rfl, rfl, rfl⟩
  intro raw w inst h
  simp [setup_client, h, install_snd, _setup_client]

/-- Witness for `C7_target_major_is_server_minor`: a fresh wrapper seeing
`v1.29.4` provisions into the directory keyed by 29. -/
theorem C7_target_major_witness :
    (setup_client "v1.29.4" (fun _ => ["29", "0", "0"])
        (initialWrapper ["28", "0", "0"]) emptyInstall).2.2
      = ["home", "user", ".cache", "nomw", "python", "29"] := by
  have h := (C7_target_major_is_server_minor (fun _ => ["29", "0", "0"])).1
      "v1.29.4" (initialWrapper ["28", "0", "0"]) emptyInstall (by decide)
  exact h.trans (by rfl)

/-- Witness for `C10_stream_properties`: a runner with a callback stdout, an
inherited stderr handle, and the default discarded stdin. -/
theorem C10_stream_properties_witness :
    Runner.stdout_prop (ProcessRunner_init ["cmd"] .callback (.handle 2) .devnull none)
        = .ok (some .fromStdout) ∧
    Runner.stderr_prop (ProcessRunner_init ["cmd"] .callback (.handle 2) .devnull none)
        = .error "not available" ∧
    Runner.stdin_prop (ProcessRunner_init ["cmd"] .callback (.handle 2) .devnull none)
        = .error "not available" := by
  have h := C10_stream_properties ["cmd"] .callback (.handle 2) .devnull none
  exact ⟨h.2.1 (by decide), h.2.2.1 (by decide), h.2.2.2.2.1 (by decide)⟩

/-! ## Invariants of the cooperative run (towards C1, C2, C8) -/

theorem inv_init (spec : RunSpec) : Inv spec (initConfig spec) := by
  refine ⟨⟨?_, ?_, ?_⟩, ⟨?_, ?_, ?_⟩, ⟨?_, ?_, ?_, ?_⟩⟩
  · show (Option.map (fun _ => (⟨0, false⟩ : TaskSt)) spec.stdin_src).isSome
      = spec.stdin_src.isSome
    cases spec.stdin_src <;> rfl
  · show (Option.map (fun _ => (⟨0, false⟩ : TaskSt)) spec.stdout_src).isSome
      = spec.stdout_src.isSome
    cases spec.stdout_src <;> rfl
  · show (Option.map (fun _ => (⟨0, false⟩ : TaskSt)) spec.stderr_src).isSome
      = spec.stderr_src.isSome
    cases spec.stderr_src <;> rfl
  · intro ts l hts hl
    have h2 : Option.map (fun _ => (⟨0, false⟩ : TaskSt)) spec.stdin_src = some ts := hts
    rw [hl] at h2
    obtain rfl : (⟨0, false⟩ : TaskSt) = ts := Option.some.inj h2
    exact ⟨Nat.zero_le _, fun hcontra => Bool.noConfusion hcontra⟩
  · intro ts l hts hl
    have h2 : Option.map (fun _ => (⟨0, false⟩ : TaskSt)) spec.stdout_src = some ts := hts
    rw [hl] at h2
    obtain rfl : (⟨0, false⟩ : TaskSt) = ts := Option.some.inj h2
    exact ⟨Nat.zero_le _, fun hcontra => Bool.noConfusion hcontra⟩
  · intro ts l hts hl
    have h2 : Option.map (fun _ => (⟨0, false⟩ : TaskSt)) spec.stderr_src = some ts := hts
    rw [hl] at h2
    obtain rfl : (⟨0, false⟩ : TaskSt) = ts := Option.some.inj h2
    exact ⟨Nat.zero_le _, fun hcontra => Bool.noConfusion hcontra⟩
  · intro h
    rcases h with h | h | h | h <;> exact WaitPC.noConfusion h
  · intro h
    rcases h with h | h | h <;> exact WaitPC.noConfusion h
  · intro h
    rcases h with h | h <;> exact WaitPC.noConfusion h
  · intro h
    exact WaitPC.noConfusion h

theorem inv_step (spec : RunSpec) (e : Ev) (c c' : Config)
    (hs : Step spec e c c') (hi : Inv spec c) : Inv spec c' := by
  obtain ⟨⟨ha1, ha2, ha3⟩, ⟨hb1, hb2, hb3⟩, ⟨hp1, hp2, hp3, hp4⟩⟩ := hi
  cases hs with
  | childExit _ h =>
    exact ⟨⟨ha1, ha2, ha3⟩, ⟨hb1, hb2, hb3⟩, ⟨fun _ => rfl, hp2, hp3, hp4⟩⟩
  | stdinWrite _ t src hw hsrc hf hlt =>
    refine ⟨⟨?_, ha2, ha3⟩, ⟨?_, hb2, hb3⟩, ⟨hp1, ?_, hp3, hp4⟩⟩
    · rw [hsrc]; rfl
    · intro ts l hts hl
      rw [hsrc] at hl
      obtain rfl : src = l := Option.some.inj hl
      obtain rfl : (⟨t.moved + 1, false⟩ : TaskSt) = ts := Option.some.inj hts
      exact ⟨hlt, fun hcontra => Bool.noConfusion hcontra⟩
    · intro hpc
      exfalso
      have hd := hp2 hpc
      rw [hw] at hd
      simp only [taskDone] at hd
      rw [hf] at hd
      exact Bool.noConfusion hd
  | stdinClose _ t src hw hsrc hf hm =>
    refine ⟨⟨?_, ha2, ha3⟩, ⟨?_, hb2, hb3⟩, ⟨hp1, ?_, hp3, hp4⟩⟩
    · rw [hsrc]; rfl
    · intro ts l hts hl
      rw [hsrc] at hl
      obtain rfl : src = l := Option.some.inj hl
      obtain rfl : (⟨t.moved, true⟩ : TaskSt) = ts := Option.some.inj hts
      exact ⟨hm.le, fun _ => hm⟩
    · intro _
      rfl
  | stdoutRead _ t src hw hsrc hf hlt =>
    refine ⟨⟨ha1, ?_, ha3⟩, ⟨hb1, ?_, hb3⟩, ⟨hp1, hp2, ?_, hp4⟩⟩
    · rw [hsrc]; rfl
    · intro ts l hts hl
      rw [hsrc] at hl
      obtain rfl : src = l := Option.some.inj hl
      obtain rfl : (⟨t.moved + 1, false⟩ : TaskSt) = ts := Option.some.inj hts
      exact ⟨hlt, fun hcontra => Bool.noConfusion hcontra⟩
    · intro hpc
      exfalso
      have hd := hp3 hpc
      rw [hw] at hd
      simp only [taskDone] at hd
      rw [hf] at hd
      exact Bool.noConfusion hd
  | stdoutEOF _ t src hw hsrc hf hm hex =>
    refine ⟨⟨ha1, ?_, ha3⟩, ⟨hb1, ?_, hb3⟩, ⟨hp1, hp2, ?_, hp4⟩⟩
    · rw [hsrc]; rfl
    · intro ts l hts hl
      rw [hsrc] at hl
      obtain rfl : src = l := Option.some.inj hl
      obtain rfl : (⟨t.moved, true⟩ : TaskSt) = ts := Option.some.inj hts
      exact ⟨hm.le, fun _ => hm⟩
    · intro _
      rfl
  | stderrRead _ t src hw hsrc hf hlt =>
    refine ⟨⟨ha1, ha2, ?_⟩, ⟨hb1, hb2, ?_⟩, ⟨hp1, hp2, hp3, ?_⟩⟩
    · rw [hsrc]; rfl
    · intro ts l hts hl
      rw [hsrc] at hl
      obtain rfl : src = l := Option.some.inj hl
      obtain rfl : (⟨t.moved + 1, false⟩ : TaskSt) = ts := Option.some.inj hts
      exact ⟨hlt, fun hcontra => Bool.noConfusion hcontra⟩
    · intro hpc
      exfalso
      have hd := hp4 hpc
      rw [hw] at hd
      simp only [taskDone] at hd
      rw [hf] at hd
      exact Bool.noConfusion hd
  | stderrEOF _ t src hw hsrc hf hm hex =>
    refine ⟨⟨ha1, ha2, ?_⟩, ⟨hb1, hb2, ?_⟩, ⟨hp1, hp2, hp3, ?_⟩⟩
    · rw [hsrc]; rfl
    · intro ts l hts hl
      rw [hsrc] at hl
      obtain rfl : src = l := Option.some.inj hl
      obtain rfl : (⟨t.moved, true⟩ : TaskSt) = ts := Option.some.inj hts
      exact ⟨hm.le, fun _ => hm⟩
    · intro _
      rfl
  | waitChildDone _ hpc hex =>
    refine ⟨⟨ha1, ha2, ha3⟩, ⟨hb1, hb2, hb3⟩, ⟨fun _ => hex, ?_, ?_, ?_⟩⟩
    · intro h
      rcases h with h | h | h <;> exact WaitPC.noConfusion h
    · intro h
      rcases h with h | h <;> exact WaitPC.noConfusion h
    · intro h
      exact WaitPC.noConfusion h
  | waitJoinStdin _ hpc hdone =>
    refine ⟨⟨ha1, ha2, ha3⟩, ⟨hb1, hb2, hb3⟩,
      ⟨fun _ => hp1 (Or.inl hpc), fun _ => hdone, ?_, ?_⟩⟩
    · intro h
      rcases h with h | h <;> exact WaitPC.noConfusion h
    · intro h
      exact WaitPC.noConfusion h
  | waitJoinStdout _ hpc hdone =>
    refine ⟨⟨ha1, ha2, ha3⟩, ⟨hb1, hb2, hb3⟩,
      ⟨fun _ => hp1 (Or.inr (Or.inl hpc)), fun _ => hp2 (Or.inl hpc),
       fun _ => hdone, ?_⟩⟩
    intro h
    exact WaitPC.noConfusion h
  | waitJoinStderr _ hpc hdone =>
    exact ⟨⟨ha1, ha2, ha3⟩, ⟨hb1, hb2, hb3⟩,
      ⟨fun _ => hp1 (Or.inr (Or.inr (Or.inl hpc))),
       fun _ => hp2 (Or.inr (Or.inl hpc)),
       fun _ => hp3 (Or.inl hpc),
       fun _ => hdone⟩⟩
  | timeoutFire _ harm hne1 hne2 =>
    refine ⟨⟨ha1, ha2, ha3⟩, ⟨hb1, hb2, hb3⟩, ⟨?_, ?_, ?_, ?_⟩⟩
    · intro h
      rcases h with h | h | h | h <;> exact WaitPC.noConfusion h
    · intro h
      rcases h with h | h | h <;> exact WaitPC.noConfusion h
    · intro h
      rcases h with h | h <;> exact WaitPC.noConfusion h
    · intro h
      exact WaitPC.noConfusion h
  | callTerminate =>
    exact ⟨⟨ha1, ha2, ha3⟩, ⟨hb1, hb2, hb3⟩, ⟨hp1, hp2, hp3, hp4⟩⟩
  | callKill =>
    exact ⟨⟨ha1, ha2, ha3⟩, ⟨hb1, hb2, hb3⟩, ⟨hp1, hp2, hp3, hp4⟩⟩

theorem inv_reachable (spec : RunSpec) (c : Config) (h : Reachable spec c) :
    Inv spec c := by
  induction h with
  | refl => exact inv_init spec
  | tail hab hbc ih =>
    obtain ⟨e, he⟩ := hbc
    exact inv_step spec e _ _ he ih

theorem delivered_eq_src (src : Option (List String)) (t : Option TaskSt)
    (hatt : t.isSome = src.isSome) (hb : boundInv1 src t) (hd : taskDone t = true) :
    deliveredUnits src t = Option.getD src [] := by
  cases src with
  | none =>
    cases t with
    | none => rfl
    | some ts => exact Bool.noConfusion hatt
  | some l =>
    cases t with
    | none => exact Bool.noConfusion hatt
    | some ts =>
      have hm := (hb ts l rfl rfl).2 hd
      simp [deliveredUnits, hm]

/-! ## Claim theorems: the wait barrier (C1) -/

/-- C1: for every combination of stream targets (`None`/inherited
handle/callable sink on stdout and stderr; `None`/`DEVNULL`/handle/blob/
callable producer on stdin), in every reachable configuration in which
`wait` has returned, the child process has exited, every attached pump
greenlet has finished, and each attached pump has moved exactly its source's
unit list — the stdin writer wrote everything, and each reader delivered to
its sink precisely the units the child emitted, in arrival order, none
dropped or duplicated. -/
theorem C1_wait_return_barrier (stdout stderr : OutTarget) (stdin : InTarget)
    (in_units out_units err_units : List String) (ta : Bool) (c : Config)
    (hr : Reachable (specOfTargets stdout stderr stdin in_units out_units err_units ta) c)
    (hret : c.pc = .returned) :
    c.child_exited = true ∧
    taskDone c.stdin_w = true ∧
    taskDone c.stdout_r = true ∧
    taskDone c.stderr_r = true ∧
    writtenIn (specOfTargets stdout stderr stdin in_units out_units err_units ta) c
      = Option.getD
          (specOfTargets stdout stderr stdin in_units out_units err_units ta).stdin_src [] ∧
    deliveredOut (specOfTargets stdout stderr stdin in_units out_units err_units ta) c
      = Option.getD
          (specOfTargets stdout stderr stdin in_units out_units err_units ta).stdout_src [] ∧
    deliveredErr (specOfTargets stdout stderr stdin in_units out_units err_units ta) c
      = Option.getD
          (specOfTargets stdout stderr stdin in_units out_units err_units ta).stderr_src [] := by
  obtain ⟨⟨ha1, ha2, ha3⟩, ⟨hb1, hb2, hb3⟩, ⟨hp1, hp2, hp3, hp4⟩⟩ :=
    inv_reachable _ c hr
  have hdin := hp2 (Or.inr (Or.inr hret))
  have hdout := hp3 (Or.inr hret)
  have hderr := hp4 hret
  refine ⟨hp1 (Or.inr (Or.inr (Or.inr hret))), hdin, hdout, hderr, ?_, ?_, ?_⟩
  · exact delivered_eq_src _ _ ha1 hb1 hdin
  · exact delivered_eq_src _ _ ha2 hb2 hdout
  · exact delivered_eq_src _ _ ha3 hb3 hderr

/-- Witness for `C1_wait_return_barrier`: a run with a callable stdout sink
receiving one line, discarded stderr and stdin, driven along a concrete
schedule to the returned state, has delivered the line. -/
theorem C1_wait_return_barrier_witness :
    ({ child_exited := true, term_signaled := false, stdin_w := none,
       stdout_r := some ⟨1, true⟩, stderr_r := none, pc := .returned } : Config).child_exited
        = true ∧
    deliveredOut (specOfTargets .callback .nullTarget .devnull [] ["line one\n"] [] false)
      { child_exited := true, term_signaled := false, stdin_w := none,
        stdout_r := some ⟨1, true⟩, stderr_r := none, pc := .returned }
        = ["line one\n"] := by
  have s1 : StepAny (specOfTargets .callback .nullTarget .devnull [] ["line one\n"] [] false)
      (initConfig (specOfTargets .callback .nullTarget .devnull [] ["line one\n"] [] false))
      { child_exited := true, term_signaled := false, stdin_w := none,
        stdout_r := some ⟨0, false⟩, stderr_r := none, pc := .inBody } :=
    ⟨.childExit, Step.childExit _ rfl⟩
  have s2 : StepAny (specOfTargets .callback .nullTarget .devnull [] ["line one\n"] [] false)
      { child_exited := true, term_signaled := false, stdin_w := none,
        stdout_r := some ⟨0, false⟩, stderr_r := none, pc := .inBody }
      { child_exited := true, term_signaled := false, stdin_w := none,
        stdout_r := some ⟨1, false⟩, stderr_r := none, pc := .inBody } :=
    ⟨.stdoutRead, Step.stdoutRead _ ⟨0, false⟩ ["line one\n"] rfl rfl rfl (by decide)⟩
  have s3 : StepAny (specOfTargets .callback .nullTarget .devnull [] ["line one\n"] [] false)
      { child_exited := true, term_signaled := false, stdin_w := none,
        stdout_r := some ⟨1, false⟩, stderr_r := none, pc := .inBody }
      { child_exited := true, term_signaled := false, stdin_w := none,
        stdout_r := some ⟨1, true⟩, stderr_r := none, pc := .inBody } :=
    ⟨.stdoutEOF, Step.stdoutEOF _ ⟨1, false⟩ ["line one\n"] rfl rfl rfl rfl rfl⟩
  have s4 : StepAny (specOfTargets .callback .nullTarget .devnull [] ["line one\n"] [] false)
      { child_exited := true, term_signaled := false, stdin_w := none,
        stdout_r := some ⟨1, true⟩, stderr_r := none, pc := .inBody }
      { child_exited := true, term_signaled := false, stdin_w := none,
        stdout_r := some ⟨1, true⟩, stderr_r := none, pc := .joinStdin } :=
    ⟨.waitChildDone, Step.waitChildDone _ rfl rfl⟩
  have s5 : StepAny (specOfTargets .callback .nullTarget .devnull [] ["line one\n"] [] false)
      { child_exited := true, term_signaled := false, stdin_w := none,
        stdout_r := some ⟨1, true⟩, stderr_r := none, pc := .joinStdin }
      { child_exited := true, term_signaled := false, stdin_w := none,
        stdout_r := some ⟨1, true⟩, stderr_r := none, pc := .joinStdout } :=
    ⟨.waitJoinStdin, Step.waitJoinStdin _ rfl rfl⟩
  have s6 : StepAny (specOfTargets .callback .nullTarget .devnull [] ["line one\n"] [] false)
      { child_exited := true, term_signaled := false, stdin_w := none,
        stdout_r := some ⟨1, true⟩, stderr_r := none, pc := .joinStdout }
      { child_exited := true, term_signaled := false, stdin_w := none,
        stdout_r := some ⟨1, true⟩, stderr_r := none, pc := .joinStderr } :=
    ⟨.waitJoinStdout, Step.waitJoinStdout _ rfl rfl⟩
  have s7 : StepAny (specOfTargets .callback .nullTarget .devnull [] ["line one\n"] [] false)
      { child_exited := true, term_signaled := false, stdin_w := none,
        stdout_r := some ⟨1, true⟩, stderr_r := none, pc := .joinStderr }
      { child_exited := true, term_signaled := false, stdin_w := none,
        stdout_r := some ⟨1, true⟩, stderr_r := none, pc := .returned } :=
    ⟨.waitJoinStderr, Step.waitJoinStderr _ rfl rfl⟩
  have hreach : Reachable (specOfTargets .callback .nullTarget .devnull [] ["line one\n"] [] false)
      { child_exited := true, term_signaled := false, stdin_w := none,
        stdout_r := some ⟨1, true⟩, stderr_r := none, pc := .returned } :=
    Relation.ReflTransGen.tail
      (Relation.ReflTransGen.tail
        (Relation.ReflTransGen.tail
          (Relation.ReflTransGen.tail
            (Relation.ReflTransGen.tail
              (Relation.ReflTransGen.tail
                (Relation.ReflTransGen.tail Relation.ReflTransGen.refl s1) s2) s3) s4) s5) s6) s7
  have h := C1_wait_return_barrier .callback .nullTarget .devnull [] ["line one\n"] [] false
      _ hreach rfl
  exact ⟨h.1, h.2.2.2.2.2.1⟩

/-! ## Claim theorems: timeout half-cancellation (C2) -/

/-- C2: the timeout firing inside `wait` raises `TimeoutExpired` and changes
nothing but the `wait` program counter — the child process, the
terminate/kill signal state, and all three pump greenlets are exactly as
before; and the only events that ever signal the child are the caller's
explicit `terminate()` or `kill()` calls. -/
theorem C2_timeout_not_auto_kill :
    (∀ (spec : RunSpec) (c c' : Config), Step spec .timeoutFire c c' →
      wait_raises c' = some .timeoutExpired ∧
      c'.child_exited = c.child_exited ∧
      c'.term_signaled = c.term_signaled ∧
      c'.stdin_w = c.stdin_w ∧ c'.stdout_r = c.stdout_r ∧ c'.stderr_r = c.stderr_r) ∧
    (∀ (spec : RunSpec) (e : Ev) (c c' : Config), Step spec e c c' →
      c.term_signaled = false → c'.term_signaled = true →
      e = .callTerminate ∨ e = .callKill) := by
  constructor
  · intro spec c c' hs
    cases hs
    exact ⟨rfl, rfl, rfl, rfl, rfl, rfl⟩
  · intro spec e c c' hs h0 h1
    cases hs <;> simp_all

/-- Witness for `C2_timeout_not_auto_kill`: the timeout fires while a run
with an attached stdout pump is still in `proc.wait()`; the child is still
not exited and not signalled afterward, and a `terminate()` call is the
event that signals it. -/
theorem C2_timeout_not_auto_kill_witness :
    wait_raises
      { child_exited := false, term_signaled := false, stdin_w := none,
        stdout_r := some ⟨0, false⟩, stderr_r := none, pc := .raisedTimeout }
      = some .timeoutExpired ∧
    ({ child_exited := false, term_signaled := false, stdin_w := none,
       stdout_r := some ⟨0, false⟩, stderr_r := none,
       pc := .raisedTimeout } : Config).child_exited = false ∧
    (Ev.callTerminate = Ev.callTerminate ∨ Ev.callTerminate = Ev.callKill) := by
  have hstep : Step (specOfTargets .callback .nullTarget .devnull [] ["x"] [] true)
      .timeoutFire
      (initConfig (specOfTargets .callback .nullTarget .devnull [] ["x"] [] true))
      { child_exited := false, term_signaled := false, stdin_w := none,
        stdout_r := some ⟨0, false⟩, stderr_r := none, pc := .raisedTimeout } :=
    Step.timeoutFire _ rfl (by decide) (by decide)
  have h := (C2_timeout_not_auto_kill).1
      (specOfTargets .callback .nullTarget .devnull [] ["x"] [] true) _ _ hstep
  have hterm : Step (specOfTargets .callback .nullTarget .devnull [] ["x"] [] true)
      .callTerminate
      (initConfig (specOfTargets .callback .nullTarget .devnull [] ["x"] [] true))
      { child_exited := false, term_signaled := true, stdin_w := none,
        stdout_r := some ⟨0, false⟩, stderr_r := none, pc := .inBody } :=
    Step.callTerminate _
  have h2 := (C2_timeout_not_auto_kill).2
      (specOfTargets .callback .nullTarget .devnull [] ["x"] [] true)
      .callTerminate _ _ hterm rfl rfl
  exact ⟨h.1, h.2.1, h2⟩

/-! ## Claim theorems: stdin pump (C8) -/

theorem wpipe_writeAll_spec (chunks : List String) (p : WPipe) :
    WPipe.writeAll p chunks = ⟨p.content ++ concat_all chunks, p.closed⟩ := by
  induction chunks generalizing p with
  | nil =>
    cases p
    simp [WPipe.writeAll, concat_all, string_append_empty]
  | cons ch rest ih =>
    simp only [WPipe.writeAll]
    rw [ih]
    simp [WPipe.write, concat_all, string_append_assoc]

theorem bpipe_writeAll_spec (chunks : List (List Nat)) (p : BPipe) :
    BPipe.writeAll p chunks = ⟨p.content ++ List.flatten chunks, p.closed⟩ := by
  induction chunks generalizing p with
  | nil =>
    cases p
    simp [BPipe.writeAll]
  | cons ch rest ih =>
    simp only [BPipe.writeAll]
    rw [ih]
    simp [BPipe.write]

/-- C8: a stdin source that is a text or byte blob, or a lazy callable
producer, is attached to a writer pump (`stdin_spawns_writer`); the writer
writes the entire source to the pipe and then closes it; the writer's steps
in the cooperative run never touch the stdout/stderr pumps, the `wait`
position, or the child (it is a separate concurrent task); and the writer
closes the pipe only once its whole source has been written. -/
theorem C8_stdin_pump :
    (∀ (pipe : WPipe) (source : TextSource),
      (stream_writer_text pipe source).closed = true ∧
      (stream_writer_text pipe source).content
          = pipe.content ++ TextSource.full_text source) ∧
    (∀ (pipe : BPipe) (source : BufSource),
      (stream_writer_buf pipe source).closed = true ∧
      (stream_writer_buf pipe source).content
          = pipe.content ++ BufSource.full_bytes source) ∧
    (∀ (d : String), stdin_spawns_writer (.blob d) = true) ∧
    (∀ (cs : List String), stdin_spawns_writer (.producer cs) = true) ∧
    (∀ (spec : RunSpec) (e : Ev) (c c' : Config), Step spec e c c' →
      (e = .stdinWrite ∨ e = .stdinClose) →
      c'.stdout_r = c.stdout_r ∧ c'.stderr_r = c.stderr_r ∧ c'.pc = c.pc ∧
      c'.child_exited = c.child_exited) ∧
    (∀ (spec : RunSpec) (c c' : Config), Step spec .stdinClose c c' →
      ∀ (ts : TaskSt) (l : List String), c.stdin_w = some ts →
        spec.stdin_src = some l → ts.moved = l.length) := by
  refine ⟨?_, ?_, ?_, ?_, ?_, ?_⟩
  · intro pipe source
    cases source with
    | blob s => exact ⟨rfl, rfl⟩
    | producer cs =>
      constructor
      · rfl
      · show (WPipe.close (WPipe.writeAll pipe cs)).content = _
        rw [wpipe_writeAll_spec]
        rfl
  · intro pipe source
    cases source with
    | blob b => exact ⟨rfl, rfl⟩
    | producer cs =>
      constructor
      · rfl
      · show (BPipe.close (BPipe.writeAll pipe cs)).content = _
        rw [bpipe_writeAll_spec]
        rfl
  · intro d
    rfl
  · intro cs
    rfl
  · intro spec e c c' hs he
    rcases he with rfl | rfl
    · cases hs
      exact ⟨rfl, rfl, rfl, rfl⟩
    · cases hs
      exact ⟨rfl, rfl, rfl, rfl⟩
  · intro spec c c' hs ts l hts hl
    cases hs with
    | stdinClose _ t src hw hsrc hf hm =>
      rw [hw] at hts
      obtain rfl : t = ts := Option.some.inj hts
      rw [hsrc] at hl
      obtain rfl : src = l := Option.some.inj hl
      exact hm

/-- Witness for `C8_stdin_pump`: a blob source is fully written and the pipe
closed; a concrete close step certifies the full source was written first. -/
theorem C8_stdin_pump_witness :
    (stream_writer_text ⟨"", false⟩ (.blob "payload")).closed = true ∧
    (stream_writer_text ⟨"", false⟩ (.blob "payload")).content = "payload" ∧
    stdin_spawns_writer (.blob "payload") = true ∧
    (⟨1, false⟩ : TaskSt).moved = (["payload"] : List String).length := by
  have h := C8_stdin_pump
  have h1 := h.1 ⟨"", false⟩ (.blob "payload")
  have hstep : Step (specOfTargets .nullTarget .nullTarget (.blob "payload")
        ["payload"] [] [] false) .stdinClose
      { child_exited := false, term_signaled := false, stdin_w := some ⟨1, false⟩,
        stdout_r := none, stderr_r := none, pc := .inBody }
      { child_exited := false, term_signaled := false, stdin_w := some ⟨1, true⟩,
        stdout_r := none, stderr_r := none, pc := .inBody } :=
    Step.stdinClose _ ⟨1, false⟩ ["payload"] rfl rfl rfl rfl
  refine ⟨h1.1, h1.2.trans (by rfl), h.2.2.1 "payload", ?_⟩
  exact h.2.2.2.2.2 _ _ _ hstep ⟨1, false⟩ ["payload"] rfl rfl

end Nomw
